import Mathlib

/-!
Verification of the fcc_publicfile_tracker scripts.

The definitions below are a shallow embedding of the Python scripts of the
repository.  Strings are modelled as Lean `String`/`List Char`; Python's
`None` becomes `Option.none`; Python truthiness of a string value is
"not none and not empty".  Casing, digit and whitespace predicates follow
Python's behaviour on the ASCII range (the data handled by the scripts).
-/

/-- ASCII whitespace, as recognised by Python's `str.split()` / regex `\s`. -/
def isSpaceChar (c : Char) : Bool :=
  c == ' ' || c == '\t' || c == '\n' || c == '\r' || c == '\x0b' || c == '\x0c'

/-- Substring test on char lists: Python's `sub in s`. -/
def containsSubL (sub : List Char) : List Char → Bool
  | [] => sub.isEmpty
  | c :: rest => sub.isPrefixOf (c :: rest) || containsSubL sub rest

/-- Python's `sub in s` on strings. -/
def pyContains (s sub : String) : Bool :=
  containsSubL sub.data s.data

/-- Python's `s.startswith(pre)`. -/
def pyStartsWith (s pre : String) : Bool :=
  pre.data.isPrefixOf s.data

/-- The file path both scripts extract from a title:
`title.split(' in ')[1].split(' on ')[0]` (guarded by `' in ' in title`). -/
def pathOfTitle (title : String) : String :=
  (((title.splitOn " in ").getD 1 "").splitOn " on ").getD 0 ""

/-- One fuel-measured pass of `str.replace`: replace every non-overlapping
occurrence of `pat` (nonempty for every use in the source), left to right. -/
def pyReplaceGo (pat rep : List Char) : Nat → List Char → List Char
  | 0, l => l
  | _ + 1, [] => []
  | fuel + 1, c :: rest =>
    if pat.isPrefixOf (c :: rest) then
      rep ++ pyReplaceGo pat rep fuel ((c :: rest).drop pat.length)
    else
      c :: pyReplaceGo pat rep fuel rest

/-- Python's `s.replace(pat, rep)`. -/
def pyReplaceS (s pat rep : String) : String :=
  String.mk (pyReplaceGo pat.data rep.data (s.data.length + 1) s.data)

/-- Python's `s.isdigit()` (ASCII digits; empty string is not a digit string). -/
def pyIsDigitStr (s : String) : Bool :=
  !s.data.isEmpty && s.data.all Char.isDigit

/-- Python's `int(s)` on a digit string. -/
def pyToNat (s : String) : Nat :=
  s.data.foldl (fun n c => 10 * n + (c.toNat - '0'.toNat)) 0

/-- A feed record as the scripts see it (a JSON object; absent keys are
`none`).  Only the `title` field drives the classifiers. -/
structure Item where
  title : Option String
  url : Option String
  id : Option String
deriving DecidableEq, Repr

/-- `federal_offices` of `categorize_record`. -/
def federal_offices : List String := ["US House", "US Senate", "President"]

/-- `category_values` of `categorize_record`. -/
def category_values : List String := ["Federal", "State", "Local", "Non-Candidate Issue Ads"]

/-- The Political Matters prefix string used by `categorize_record`. -/
def pmLabel : String := "Political Matters and Controversial Issues Disclosures"

/-- The year-stripping step shared by both branches of `categorize_record`:
`if segments and segments[0].isdigit() and len(segments[0]) == 4: segments = segments[1:]`. -/
def dropLeadingYear (segments : List String) : List String :=
  match segments with
  | [] => []
  | s0 :: rest => if pyIsDigitStr s0 && s0.length == 4 then rest else s0 :: rest

/-- Office/sponsor extraction of the `Political Files/` branch of
`categorize_record` (the source's `len(segments)` case split). -/
def politicalFilesOfficeSponsor (segments : List String) : Option String × Option String :=
  match segments with
  | [] => (none, none)
  | [s0] => (some s0, none)
  | [s0, s1] =>
    if category_values.contains s0 then
      if federal_offices.contains s1 || category_values.contains s1 then
        (some s1, none)
      else
        (some s0, some s1)
    else
      (some s0, some s1)
  | s0 :: s1 :: s2 :: rest =>
    if category_values.contains s0 then
      (some s1, some s2)
    else
      (some ((s0 :: s1 :: s2 :: rest).getD ((s0 :: s1 :: s2 :: rest).length - 2) ""),
       some ((s0 :: s1 :: s2 :: rest).getD ((s0 :: s1 :: s2 :: rest).length - 1) ""))

/-- Sponsor extraction of the Political Matters branch of `categorize_record`. -/
def politicalMattersSponsor (path : String) : Option String :=
  let segments0 := (pyReplaceS path (pmLabel ++ "/") "").splitOn "/"
  let segments1 := segments0.filter (fun s => s ≠ "")
  let segments2 := dropLeadingYear segments1
  segments2.getLast?

/-- `categorize_record` of `tag_and_clean_data.py`: returns
`(record_type, path, office, sponsor)`. -/
def categorize_record (item : Item) : String × Option String × Option String × Option String :=
  let title := item.title.getD ""
  if !pyContains title " in " then ("unknown", none, none, none)
  else
    let path := pathOfTitle title
    if pyStartsWith path pmLabel then
      ("political_matters", some path, some "Political Matters", politicalMattersSponsor path)
    else if pyStartsWith path "Political Files/" then
      let offSpon := politicalFilesOfficeSponsor
        (dropLeadingYear ((pyReplaceS path "Political Files/" "").splitOn "/"))
      ("political_ad", some path, offSpon.1, offSpon.2)
    else
      ("non_political", some path, none, none)

/-- The three buckets the inline classifier of `non_political_ads_analysis.py`
sorts records into. -/
inductive Bucket where
  | politicalAds : Bucket
  | nonPolitical : String → Bucket
  | malformed : Bucket
deriving DecidableEq, Repr

/-- The inline classifier of `analyze_non_political_ads`. -/
def analyzeBucket (item : Item) : Bucket :=
  let title := item.title.getD ""
  if pyContains title " in " then
    let path := pathOfTitle title
    if pyStartsWith path "Political Files/" then Bucket.politicalAds
    else Bucket.nonPolitical ((path.splitOn "/").getD 0 "")
  else Bucket.malformed

/-- A string starting with `Political Files/` does not start with the
Political Matters label (they differ at character 10). -/
theorem pf_not_pm (p : String) (h : pyStartsWith p "Political Files/" = true) :
    pyStartsWith p pmLabel = false := by
  unfold pyStartsWith at *
  by_contra hpm
  rw [Bool.not_eq_false] at hpm
  rw [List.isPrefixOf_iff_prefix] at h hpm
  have hle : ("Political Files/".data).length ≤ (pmLabel.data).length := by decide
  have := List.prefix_of_prefix_length_le h hpm hle
  rw [← List.isPrefixOf_iff_prefix] at this
  exact absurd this (by decide)

/-- C1: `categorize_record` sends every record to exactly one of the four
record types, driven by the path extracted from the record's title:
`unknown` (with `none` path, office and sponsor) exactly when the title has
no `' in '`; `political_matters` exactly when the extracted path starts with
the Political Matters label; `political_ad` exactly when it starts with
`Political Files/`; `non_political` in every other case. -/
theorem C1_categorize_record_classification (item : Item) :
    ((categorize_record item).1 = "unknown" ↔
      pyContains (item.title.getD "") " in " = false) ∧
    ((categorize_record item).1 = "unknown" →
      categorize_record item = ("unknown", none, none, none)) ∧
    ((categorize_record item).1 = "political_matters" ↔
      (pyContains (item.title.getD "") " in " = true ∧
       pyStartsWith (pathOfTitle (item.title.getD "")) pmLabel = true)) ∧
    ((categorize_record item).1 = "political_ad" ↔
      (pyContains (item.title.getD "") " in " = true ∧
       pyStartsWith (pathOfTitle (item.title.getD "")) "Political Files/" = true)) ∧
    ((categorize_record item).1 = "non_political" ↔
      (pyContains (item.title.getD "") " in " = true ∧
       pyStartsWith (pathOfTitle (item.title.getD "")) pmLabel = false ∧
       pyStartsWith (pathOfTitle (item.title.getD "")) "Political Files/" = false)) := by
  by_cases h1 : pyContains (item.title.getD "") " in " = true
  · by_cases h2 : pyStartsWith (pathOfTitle (item.title.getD "")) pmLabel = true
    · have hpf : pyStartsWith (pathOfTitle (item.title.getD "")) "Political Files/" = false := by
        by_contra hc
        rw [Bool.not_eq_false] at hc
        rw [pf_not_pm (pathOfTitle (item.title.getD "")) hc] at h2
        exact Bool.false_ne_true h2
      have hv : categorize_record item =
          ("political_matters", some (pathOfTitle (item.title.getD "")),
           some "Political Matters", politicalMattersSponsor (pathOfTitle (item.title.getD ""))) := by
        simp [categorize_record, h1, h2]
      simp [hv, h1, h2, hpf]
    · have h2' : pyStartsWith (pathOfTitle (item.title.getD "")) pmLabel = false := by
        simpa using h2
      by_cases h3 : pyStartsWith (pathOfTitle (item.title.getD "")) "Political Files/" = true
      · have hv : (categorize_record item).1 = "political_ad" := by
          simp [categorize_record, h1, h2', h3]
        simp [hv, h1, h2', h3]
      · have h3' : pyStartsWith (pathOfTitle (item.title.getD "")) "Political Files/" = false := by
          simpa using h3
        have hv : (categorize_record item).1 = "non_political" := by
          simp [categorize_record, h1, h2', h3']
        simp [hv, h1, h2', h3']
  · have h1' : pyContains (item.title.getD "") " in " = false := by
      simpa using h1
    simp [categorize_record, h1']

/-- C10: the inline classifier of `non_political_ads_analysis.py` agrees with
`categorize_record`: a record is `unknown` exactly when the analysis script
puts it in the malformed list, and `political_ad` exactly when the analysis
script puts it in its political ads list. -/
theorem C10_inline_classifier_agrees (item : Item) :
    ((categorize_record item).1 = "unknown" ↔ analyzeBucket item = Bucket.malformed) ∧
    ((categorize_record item).1 = "political_ad" ↔ analyzeBucket item = Bucket.politicalAds) := by
  by_cases h1 : pyContains (item.title.getD "") " in " = true
  · by_cases h2 : pyStartsWith (pathOfTitle (item.title.getD "")) pmLabel = true
    · have h3 : pyStartsWith (pathOfTitle (item.title.getD "")) "Political Files/" = false := by
        by_contra hpf
        rw [Bool.not_eq_false] at hpf
        rw [pf_not_pm (pathOfTitle (item.title.getD "")) hpf] at h2
        exact Bool.false_ne_true h2
      simp [categorize_record, analyzeBucket, h1, h2, h3]
    · by_cases h3 : pyStartsWith (pathOfTitle (item.title.getD "")) "Political Files/" = true
      · simp [categorize_record, analyzeBucket, h1, h2, h3]
      · simp [categorize_record, analyzeBucket, h1, h2, h3]
  · have h1' : pyContains (item.title.getD "") " in " = false := by simpa using h1
    simp [categorize_record, analyzeBucket, h1']

/-! ### File manifests of the eight scripts (claims C5, C6) -/

/-- The eight scripts of the repository. -/
inductive Script where
  | fetch_radio_stations : Script
  | get_fcc : Script
  | url_checker : Script
  | rss_parse : Script
  | tag_and_clean_data : Script
  | standardize_sponsors : Script
  | non_political_ads_analysis : Script
  | create_minimal_json : Script
deriving DecidableEq, Repr

/-- The local data files each script reads in one invocation (from its
`open(..., 'r')` calls and csv readers; `fetch_radio_stations` reads only a
web page, the RSS stage additionally reads RSS feeds over the network). -/
def readsOf : Script → List String
  | .fetch_radio_stations => []
  | .get_fcc => ["urban_radio_stations.csv"]
  | .url_checker => ["urban_radio_stations_checked.csv"]
  | .rss_parse => ["urban_radio_stations_with_status.csv", "radio_ads.json"]
  | .tag_and_clean_data => ["radio_ads.json"]
  | .standardize_sponsors => ["radio_ads_tagged.json"]
  | .non_political_ads_analysis => ["radio_ads.json"]
  | .create_minimal_json => ["radio_ads_standardized.json"]

/-- The files each script writes in one invocation (from its
`open(..., 'w')` calls). -/
def writesOf : Script → List String
  | .fetch_radio_stations => ["urban_radio_stations.csv"]
  | .get_fcc => ["urban_radio_stations_checked.csv"]
  | .url_checker => ["urban_radio_stations_with_status.csv"]
  | .rss_parse => ["radio_ads.json"]
  | .tag_and_clean_data => ["radio_ads_tagged.json"]
  | .standardize_sponsors =>
      ["radio_ads_standardized.json", "sponsor_mapping.json",
       "sponsor_standardization_report.txt"]
  | .non_political_ads_analysis => ["non_political_ads_report.txt", "non_political_ads.json"]
  | .create_minimal_json => ["radio_ads_heatmap.json"]

/-- Output-file formats. -/
inductive FileFormat where
  | csv : FileFormat
  | json : FileFormat
  | txt : FileFormat
deriving DecidableEq, Repr

/-- The format of the data file a stage produces for the next stage (the
first entry of `writesOf`). -/
def stageFormat : Script → FileFormat
  | .fetch_radio_stations => .csv
  | .get_fcc => .csv
  | .url_checker => .csv
  | .rss_parse => .json
  | .tag_and_clean_data => .json
  | .standardize_sponsors => .json
  | .non_political_ads_analysis => .json
  | .create_minimal_json => .json

/-- Two scripts are chained when the second reads a file the first writes. -/
def chainedTo (a b : Script) : Bool :=
  (writesOf a).any (fun f => (readsOf b).contains f)

/-- Consecutive chaining of a stage list: each stage reads a file written
by the stage before it. -/
def chainB : List Script → Bool
  | [] => true
  | [_] => true
  | a :: b :: rest => chainedTo a b && chainB (b :: rest)

/-- The main pipeline, ordered by the shared file names
(`urban_radio_stations.csv` → `..._checked.csv` → `..._with_status.csv` →
`radio_ads.json` → `radio_ads_tagged.json` → `radio_ads_standardized.json` →
`radio_ads_heatmap.json`). -/
def pipelineStages : List Script :=
  [.fetch_radio_stations, .get_fcc, .url_checker, .rss_parse,
   .tag_and_clean_data, .standardize_sponsors, .create_minimal_json]

/-- The number of files each script writes, as the source has it. -/
def writeCount : Script → Nat
  | .standardize_sponsors => 3
  | .non_political_ads_analysis => 2
  | _ => 1

/-- C5 counterexample: `standardize_sponsors` writes three files
(standardized data, sponsor mapping, text report), so the set of files
written by one invocation of that script does not have cardinality one. -/
theorem C5_counterexample_standardize_writes :
    (writesOf Script.standardize_sponsors).length = 3 ∧
    ¬ (writesOf Script.standardize_sponsors).length = 1 := by
  decide

/-- C5 (amended): every script writes at least one output file, and the
writes of one invocation are exactly one file for each script except
`standardize_sponsors` (three files) and `non_political_ads_analysis`
(two files). -/
theorem C5_amended_write_counts (s : Script) :
    (writesOf s).length = writeCount s ∧ 1 ≤ (writesOf s).length := by
  cases s <;> exact ⟨rfl, by decide⟩

/-- C6 counterexample: the chained pipeline has seven stages whose
output-format sequence is CSV, CSV, CSV, JSON, JSON, JSON, JSON — not the
claimed CSV, CSV, JSON, JSON, JSON — and the RSS stage does not read exactly
the single file written by the stage before it (it also re-reads its own
accumulated output). -/
theorem C6_counterexample_pipeline_shape :
    pipelineStages.map stageFormat =
      [.csv, .csv, .csv, .json, .json, .json, .json] ∧
    pipelineStages.map stageFormat ≠
      [FileFormat.csv, .csv, .json, .json, .json] ∧
    readsOf Script.rss_parse ≠ writesOf Script.url_checker := by
  decide

/-- C6 (amended): the scripts form a pipeline chained only by shared file
names; its stage sequence is CSV → CSV → CSV → JSON → JSON → JSON → JSON
(three CSV-producing stages, then four JSON-producing ones), and every
stage reads a file written by the previous stage (the RSS stage additionally
re-reads its own output, and `standardize_sponsors` writes a mapping and a
report besides the JSON file the next stage reads). -/
theorem C6_amended_pipeline_shape :
    pipelineStages.map stageFormat =
      [.csv, .csv, .csv, .json, .json, .json, .json] ∧
    chainB pipelineStages = true := by
  decide

/-! ### Year extraction (claim C4) -/

/-- ASCII decimal digit (regex `\d` / the digits of the year pattern). -/
def isDigitChar (c : Char) : Bool :=
  decide (48 ≤ c.toNat ∧ c.toNat ≤ 57)

/-- Regex word characters (`\w`, ASCII model): letters, digits, underscore.
The `\b` boundaries of the year pattern test this on the neighbour chars. -/
def isWordChar (c : Char) : Bool :=
  decide ((65 ≤ c.toNat ∧ c.toNat ≤ 90) ∨ (97 ≤ c.toNat ∧ c.toNat ≤ 122) ∨
          (48 ≤ c.toNat ∧ c.toNat ≤ 57) ∨ c = '_')

/-- One attempt of the regex `\b(20[12][0-9])\b` of `extract_year_from_path`
at a fixed position: `prev` is the character before the position (`none` at
the start of the string), the list is the remaining text.  Returns the
matched year as `int(match.group(1))`. -/
def yearHere (prev : Option Char) : List Char → Option Nat
  | c1 :: c2 :: c3 :: c4 :: rest =>
    if c1 == '2' && c2 == '0' && (c3 == '1' || c3 == '2') && isDigitChar c4
        && !(prev.elim false isWordChar) && !(rest.head?.elim false isWordChar) then
      some (2000 + 10 * (c3.toNat - 48) + (c4.toNat - 48))
    else none
  | _ => none

/-- The left-to-right scan of `re.search` for the year pattern. -/
def searchYear (prev : Option Char) : List Char → Option Nat
  | [] => none
  | c :: rest => (yearHere prev (c :: rest)).orElse (fun _ => searchYear (some c) rest)

/-- `extract_year_from_path` of `tag_and_clean_data.py`:
`re.search(r'\b(20[12][0-9])\b', path)`, returning the matched int. -/
def extract_year_from_path (path : String) : Option Nat :=
  searchYear none path.data

/-- The character just before position `i` of `l` (`prev` at position 0). -/
def prevCharAt (prev : Option Char) (l : List Char) (i : Nat) : Option Char :=
  if i = 0 then prev else l.get? (i - 1)

/-- The year-pattern attempt of `extract_year_from_path` at position `i`. -/
def yearHereAt (prev : Option Char) (l : List Char) (i : Nat) : Option Nat :=
  yearHere (prevCharAt prev l i) (l.drop i)

theorem yearHere_bounds (prev : Option Char) (l : List Char) (n : Nat)
    (h : yearHere prev l = some n) : 2010 ≤ n ∧ n ≤ 2029 := by
  match l with
  | [] => simp [yearHere] at h
  | [_] => simp [yearHere] at h
  | [_, _] => simp [yearHere] at h
  | [_, _, _] => simp [yearHere] at h
  | c1 :: c2 :: c3 :: c4 :: rest =>
    rw [yearHere] at h
    split at h
    · rename_i hcond
      simp only [Bool.and_eq_true, Bool.or_eq_true, beq_iff_eq] at hcond
      obtain ⟨⟨⟨⟨⟨h1, h2⟩, h3⟩, h4⟩, h5⟩, h6⟩ := hcond
      have hd : 48 ≤ c4.toNat ∧ c4.toNat ≤ 57 := by
        simpa [isDigitChar] using h4
      rw [Option.some_inj] at h
      subst h
      have e1 : ('1' : Char).toNat = 49 := rfl
      have e2 : ('2' : Char).toNat = 50 := rfl
      rcases h3 with h3 | h3 <;> subst h3
      · rw [e1]; omega
      · rw [e2]; omega
    · exact absurd h (by simp)

theorem yearHereAt_zero (prev : Option Char) (l : List Char) :
    yearHereAt prev l 0 = yearHere prev l := by
  simp [yearHereAt, prevCharAt]

theorem yearHereAt_succ (prev : Option Char) (c : Char) (rest : List Char) (j : Nat) :
    yearHereAt prev (c :: rest) (j + 1) = yearHereAt (some c) rest j := by
  cases j with
  | zero => simp [yearHereAt, prevCharAt]
  | succ k => simp [yearHereAt, prevCharAt]

/-- The scan returns `none` exactly when no position matches, and a returned
value comes from the first matching position. -/
theorem searchYear_spec (l : List Char) : ∀ prev : Option Char,
    (searchYear prev l = none ↔ ∀ i, yearHereAt prev l i = none) ∧
    (∀ n, searchYear prev l = some n →
      ∃ i, yearHereAt prev l i = some n ∧ ∀ j, j < i → yearHereAt prev l j = none) := by
  induction l with
  | nil =>
    intro prev
    constructor
    · simp [searchYear, yearHereAt, yearHere]
    · intro n h
      simp [searchYear] at h
  | cons c rest ih =>
    intro prev
    cases hy : yearHere prev (c :: rest) with
    | some m =>
      have hs : searchYear prev (c :: rest) = some m := by
        rw [searchYear, hy]; rfl
      constructor
      · rw [hs]
        simp only [reduceCtorEq, false_iff, not_forall]
        exact ⟨0, by rw [yearHereAt_zero, hy]; simp⟩
      · intro n h
        rw [hs, Option.some_inj] at h
        subst h
        exact ⟨0, by rw [yearHereAt_zero]; exact hy, by omega⟩
    | none =>
      have hs : searchYear prev (c :: rest) = searchYear (some c) rest := by
        rw [searchYear, hy]; rfl
      constructor
      · rw [hs, (ih (some c)).1]
        constructor
        · intro hall i
          cases i with
          | zero => rw [yearHereAt_zero]; exact hy
          | succ j => rw [yearHereAt_succ]; exact hall j
        · intro hall j
          have := hall (j + 1)
          rwa [yearHereAt_succ] at this
      · intro n h
        rw [hs] at h
        obtain ⟨i, hi, hfirst⟩ := (ih (some c)).2 n h
        refine ⟨i + 1, by rwa [yearHereAt_succ], ?_⟩
        intro j hj
        cases j with
        | zero => rw [yearHereAt_zero]; exact hy
        | succ k => rw [yearHereAt_succ]; exact hfirst k (by omega)

/-- C4: `extract_year_from_path` returns `none` or an integer between 2010
and 2029, namely the first standalone four-digit number matching
`20[12][0-9]` in the string (with `\b` word boundaries on both sides); it
returns `none` exactly when no position of the string matches. -/
theorem C4_extract_year_range_and_first (path : String) :
    (extract_year_from_path path = none ↔ ∀ i, yearHereAt none path.data i = none) ∧
    (∀ n, extract_year_from_path path = some n →
      (2010 ≤ n ∧ n ≤ 2029) ∧
      ∃ i, yearHereAt none path.data i = some n ∧
        ∀ j, j < i → yearHereAt none path.data j = none) := by
  have h := searchYear_spec path.data none
  refine ⟨h.1, ?_⟩
  intro n hn
  obtain ⟨i, hi, hfirst⟩ := h.2 n hn
  exact ⟨yearHere_bounds _ _ _ hi, i, hi, hfirst⟩

/-- C4 witness: on `"Political Files/2024/Federal"` the extractor finds 2024,
in range, at first matching position 16; on `"no year 3024"` it finds none. -/
theorem C4_extract_year_witness :
    2010 ≤ 2024 ∧ 2024 ≤ 2029 ∧
    extract_year_from_path "Political Files/2024/Federal" = some 2024 ∧
    extract_year_from_path "no year 3024" = none := by
  have h := (C4_extract_year_range_and_first "Political Files/2024/Federal").2 2024 (by decide)
  exact ⟨h.1.1, h.1.2, by decide, by decide⟩

/-! ### A small backtracking regex engine

`standardize_sponsors.py` uses `re.match` and `re.sub` with a handful of
constructs: literal characters (one pattern case-insensitively), the classes
`\s`, `\d`, `[\s\-\d]`, the class of dash and slash, and `.`, greedy `+`, `*`, `?` and counted
repetition (unfolded below into `seq`/`opt`/`star`), alternation, the
anchors `^` and `$`, the word boundary `\b` and the lookbehind `(?<!^)`.
The engine is a continuation-passing backtracking matcher with Python's
preference order (greedy quantifiers, left-first alternation).  `prev` is
the character just before the current position (`none` at the start of the
whole string), so `^`, `\b` and `(?<!^)` see absolute positions.  A fuel
parameter makes the recursion structural; every starred sub-pattern of the
source consumes at least one character per iteration, so any fuel of at
least `sizeRE r * (length + 2) + 1` is enough and the value is
fuel-independent from there on. -/
inductive RE where
  | eps : RE
  | lit : Char → RE
  | liti : Char → RE
  | cls : (Char → Bool) → RE
  | seq : RE → RE → RE
  | alt : RE → RE → RE
  | opt : RE → RE
  | star : RE → RE
  | bos : RE
  | eos : RE
  | wb : RE
  | nlb : RE

/-- Size of a pattern, used only to pick a sufficient fuel. -/
def sizeRE : RE → Nat
  | .eps | .lit _ | .liti _ | .cls _ | .bos | .eos | .wb | .nlb => 1
  | .seq a b => sizeRE a + sizeRE b + 1
  | .alt a b => sizeRE a + sizeRE b + 1
  | .opt a => sizeRE a + 1
  | .star a => sizeRE a + 1

/-- Python `$` in default mode: end of string, or just before a final
newline. -/
def atEosL (l : List Char) : Bool :=
  match l with
  | [] => true
  | [c] => c == '\n'
  | _ => false

/-- Word-char test of an optional character (absent counts as non-word). -/
def isWordO : Option Char → Bool
  | none => false
  | some c => isWordChar c

/-- The backtracking matcher.  `k` is the continuation run on the state
after the sub-match; the result is the leftover of the first (preferred)
overall success, `none` when every alternative fails. -/
def mrun : Nat → RE → Option Char → List Char → (Option Char → List Char → Option (List Char)) → Option (List Char)
  | 0, _, _, _, _ => none
  | _ + 1, .eps, p, l, k => k p l
  | _ + 1, .lit c, _, l, k =>
    match l with
    | [] => none
    | x :: xs => if x == c then k (some x) xs else none
  | _ + 1, .liti c, _, l, k =>
    match l with
    | [] => none
    | x :: xs => if x.toLower == c then k (some x) xs else none
  | _ + 1, .cls f, _, l, k =>
    match l with
    | [] => none
    | x :: xs => if f x then k (some x) xs else none
  | fuel + 1, .seq a b, p, l, k =>
    mrun fuel a p l (fun p' l' => mrun fuel b p' l' k)
  | fuel + 1, .alt a b, p, l, k =>
    (mrun fuel a p l k).orElse (fun _ => mrun fuel b p l k)
  | fuel + 1, .opt a, p, l, k =>
    (mrun fuel a p l k).orElse (fun _ => k p l)
  | fuel + 1, .star a, p, l, k =>
    (mrun fuel a p l (fun p' l' =>
      if l'.length < l.length then mrun fuel (.star a) p' l' k else none)).orElse
      (fun _ => k p l)
  | _ + 1, .bos, p, l, k => if p.isNone then k p l else none
  | _ + 1, .eos, p, l, k => if atEosL l then k p l else none
  | _ + 1, .wb, p, l, k => if isWordO p != isWordO l.head? then k p l else none
  | _ + 1, .nlb, p, l, k => if p.isSome then k p l else none

/-- Fuel that is always sufficient for the patterns of the source. -/
def mfuel (r : RE) (l : List Char) : Nat :=
  sizeRE r * (l.length + 2) + 1

/-- Attempt a match of `r` at the current position; returns the leftover
text of the preferred match. -/
def matchHere (r : RE) (p : Option Char) (l : List Char) : Option (List Char) :=
  mrun (mfuel r l) r p l (fun _ leftover => some leftover)

/-- `re.match(r, s)`: does `r` match at the start of `s`? -/
def reMatchB (r : RE) (l : List Char) : Bool :=
  (matchHere r none l).isSome

/-- One step of `re.sub`: scan for the next match; on a match emit the
replacement (a function of the matched slice, which covers the `\1` backrefs
of the source) and continue after it; a zero-width match emits the
replacement and copies one character. -/
def pySubGo (r : RE) (repl : List Char → List Char) :
    Nat → Option Char → List Char → List Char
  | 0, _, l => l
  | _ + 1, _, [] => []
  | fuel + 1, p, x :: xs =>
    match matchHere r p (x :: xs) with
    | none => x :: pySubGo r repl fuel (some x) xs
    | some leftover =>
      let consumed := (x :: xs).length - leftover.length
      if consumed = 0 then
        repl [] ++ x :: pySubGo r repl fuel (some x) xs
      else
        repl ((x :: xs).take consumed) ++
          pySubGo r repl fuel ((x :: xs).getD (consumed - 1) x) leftover

/-- Python `re.sub(r, repl, s)` (all occurrences, left to right).  The final
zero-width attempt at the very end of the string cannot match for any
pattern of the source (each needs at least one character), so it is omitted. -/
def pySub (r : RE) (repl : List Char → List Char) (l : List Char) : List Char :=
  pySubGo r repl (l.length + 1) none l

/-- Sequence a list of patterns. -/
def reseq : List RE → RE
  | [] => .eps
  | [r] => r
  | r :: rest => .seq r (reseq rest)

/-- A literal string pattern. -/
def rlit (s : String) : RE :=
  reseq (s.data.map RE.lit)

/-- A case-insensitive literal string pattern (pattern given lowercase). -/
def rliti (s : String) : RE :=
  reseq (s.data.map RE.liti)

/-- Greedy `+`. -/
def rplus (r : RE) : RE := .seq r (.star r)

/-- `\s` as a pattern. -/
def clsS : RE := .cls isSpaceChar

/-- `\d` as a pattern. -/
def clsD : RE := .cls isDigitChar

/-- `.` (any character except newline). -/
def clsDot : RE := .cls (fun c => c != '\n')

/-! ### Python string helpers for the sponsor pipeline -/

/-- Drop leading and trailing ASCII whitespace: `str.strip()`. -/
def pyStripL (l : List Char) : List Char :=
  ((l.dropWhile isSpaceChar).reverse.dropWhile isSpaceChar).reverse

/-- Drop leading and trailing characters from `cs`: `str.strip(cs)`. -/
def pyStripCharsL (cs : List Char) (l : List Char) : List Char :=
  ((l.dropWhile cs.contains).reverse.dropWhile cs.contains).reverse

/-- Whitespace splitting of `str.split()` (no separator): runs of whitespace
separate words, leading/trailing whitespace yields no empty words.  `acc`
holds the current word reversed. -/
def wsSplitGo (acc : List Char) : List Char → List (List Char)
  | [] => if acc.isEmpty then [] else [acc.reverse]
  | c :: rest =>
    if isSpaceChar c then
      if acc.isEmpty then wsSplitGo [] rest else acc.reverse :: wsSplitGo [] rest
    else wsSplitGo (c :: acc) rest

/-- `str.split()`. -/
def pySplitWS (l : List Char) : List (List Char) :=
  wsSplitGo [] l

/-- `str.lower()` (ASCII). -/
def pyLowerL (l : List Char) : List Char :=
  l.map Char.toLower

/-- `str.upper()` (ASCII). -/
def pyUpperL (l : List Char) : List Char :=
  l.map Char.toUpper

/-- `str.title()` (ASCII): a letter is uppercased when the previous
character is not a letter, lowercased otherwise. -/
def pyTitleGo (prevCased : Bool) : List Char → List Char
  | [] => []
  | c :: rest =>
    if c.isAlpha then (if prevCased then c.toLower else c.toUpper) :: pyTitleGo true rest
    else c :: pyTitleGo false rest

/-- `str.title()`. -/
def pyTitleL (l : List Char) : List Char :=
  pyTitleGo false l

/-! ### The regex patterns of `standardize_sponsors.py` -/

/-- The class `[\s\-\d]`. -/
def clsSDD : RE := .cls (fun c => isSpaceChar c || c == '-' || isDigitChar c)

/-- The class of dash and slash used in the date pattern. -/
def clsDashSlash : RE := .cls (fun c => c == '-' || c == '/')

/-- `\s+\d{5,}[\s\-\d]*$` (trailing invoice/order numbers). -/
def patTrailNum : RE :=
  reseq [rplus clsS, clsD, clsD, clsD, clsD, clsD, .star clsD, .star clsSDD, .eos]

/-- The trailing-date pattern: one or two digits, dash or slash, one or two
digits, dash or slash, two to four digits, then `$`, all after `\s+`. -/
def patTrailDate : RE :=
  reseq [rplus clsS, clsD, .opt clsD, clsDashSlash, clsD, .opt clsD, clsDashSlash,
         clsD, clsD, .opt clsD, .opt clsD, .eos]

/-- `\s+\d{6,8}$` (trailing date-like numbers). -/
def patTrailNum68 : RE :=
  reseq [rplus clsS, clsD, clsD, clsD, clsD, clsD, clsD, .opt clsD, .opt clsD, .eos]

/-- `\s+-\s+\d+.*$` (trailing " - 123456..." tails). -/
def patTrailDashNum : RE :=
  reseq [rplus clsS, .lit '-', rplus clsS, clsD, .star clsD, .star clsDot, .eos]

/-- `^premier\s+network\s+` with `re.IGNORECASE`. -/
def patPremier : RE :=
  reseq [.bos, rliti "premier", rplus clsS, rliti "network", rplus clsS]

/-- The body of `clean_sponsor_name` on a truthy string: the four trailing
noise substitutions, the Premier Network prefix removal, whitespace
collapsing and the final strip. -/
def cleanCore (s : String) : String :=
  let c1 := pySub patTrailNum (fun _ => []) s.data
  let c2 := pySub patTrailDate (fun _ => []) c1
  let c3 := pySub patTrailNum68 (fun _ => []) c2
  let c4 := pySub patTrailDashNum (fun _ => []) c3
  let c5 := pySub patPremier (fun _ => []) c4
  let c6 := List.intercalate [' '] (pySplitWS c5)
  String.mk (pyStripL c6)

/-- `clean_sponsor_name` of `standardize_sponsors.py`. -/
def clean_sponsor_name (sponsor : Option String) : Option String :=
  match sponsor with
  | none => none
  | some s => if s = "" then none else some (cleanCore s)

/-- Pattern 1 of the `kamala harris` entry: `^kamala\s+harris\s+for\s+president`. -/
def kamalaPat1 : RE :=
  reseq [.bos, rlit "kamala", rplus clsS, rlit "harris", rplus clsS, rlit "for",
         rplus clsS, rlit "president"]

/-- `^harris\s+for\s+president`. -/
def kamalaPat2 : RE :=
  reseq [.bos, rlit "harris", rplus clsS, rlit "for", rplus clsS, rlit "president"]

/-- `^kamala\s+harris\s+d\s+president`. -/
def kamalaPat3 : RE :=
  reseq [.bos, rlit "kamala", rplus clsS, rlit "harris", rplus clsS, rlit "d",
         rplus clsS, rlit "president"]

/-- `^harris\s+d\s+president`. -/
def kamalaPat4 : RE :=
  reseq [.bos, rlit "harris", rplus clsS, rlit "d", rplus clsS, rlit "president"]

/-- `^harris-d-president`. -/
def kamalaPat5 : RE :=
  reseq [.bos, rlit "harris-d-president"]

/-- `^kamala\s+harris$`. -/
def kamalaPat6 : RE :=
  reseq [.bos, rlit "kamala", rplus clsS, rlit "harris", .eos]

/-- The patterns of the `kamala harris` entry of `CANONICAL_NAMES`. -/
def kamalaPats : List RE :=
  [kamalaPat1, kamalaPat2, kamalaPat3, kamalaPat4, kamalaPat5, kamalaPat6]

/-- `^joe\s+biden\s+for\s+president`. -/
def bidenPat1 : RE :=
  reseq [.bos, rlit "joe", rplus clsS, rlit "biden", rplus clsS, rlit "for",
         rplus clsS, rlit "president"]

/-- `^biden\s+for\s+president`. -/
def bidenPat2 : RE :=
  reseq [.bos, rlit "biden", rplus clsS, rlit "for", rplus clsS, rlit "president"]

/-- `^joseph\s+biden\s+for\s+president`. -/
def bidenPat3 : RE :=
  reseq [.bos, rlit "joseph", rplus clsS, rlit "biden", rplus clsS, rlit "for",
         rplus clsS, rlit "president"]

/-- `^joe\s+biden$`. -/
def bidenPat4 : RE :=
  reseq [.bos, rlit "joe", rplus clsS, rlit "biden", .eos]

/-- `^joseph\s+biden$`. -/
def bidenPat5 : RE :=
  reseq [.bos, rlit "joseph", rplus clsS, rlit "biden", .eos]

/-- `^biden$`. -/
def bidenPat6 : RE :=
  reseq [.bos, rlit "biden", .eos]

/-- The patterns of the `joe biden` entry of `CANONICAL_NAMES`. -/
def bidenPats : List RE :=
  [bidenPat1, bidenPat2, bidenPat3, bidenPat4, bidenPat5, bidenPat6]

/-- `^donald\s+trump\s+for\s+president`. -/
def trumpPat1 : RE :=
  reseq [.bos, rlit "donald", rplus clsS, rlit "trump", rplus clsS, rlit "for",
         rplus clsS, rlit "president"]

/-- `^donald\s+j\.?\s+trump\s+for\s+president`. -/
def trumpPat2 : RE :=
  reseq [.bos, rlit "donald", rplus clsS, rlit "j", .opt (.lit '.'), rplus clsS,
         rlit "trump", rplus clsS, rlit "for", rplus clsS, rlit "president"]

/-- `^trump\s+for\s+president`. -/
def trumpPat3 : RE :=
  reseq [.bos, rlit "trump", rplus clsS, rlit "for", rplus clsS, rlit "president"]

/-- `^donald\s+trump$`. -/
def trumpPat4 : RE :=
  reseq [.bos, rlit "donald", rplus clsS, rlit "trump", .eos]

/-- `^donald\s+j\.?\s+trump$`. -/
def trumpPat5 : RE :=
  reseq [.bos, rlit "donald", rplus clsS, rlit "j", .opt (.lit '.'), rplus clsS,
         rlit "trump", .eos]

/-- The patterns of the `donald trump` entry of `CANONICAL_NAMES`. -/
def trumpPats : List RE :=
  [trumpPat1, trumpPat2, trumpPat3, trumpPat4, trumpPat5]

/-- `^bernie\s+sanders\s+for\s+president`. -/
def berniePat1 : RE :=
  reseq [.bos, rlit "bernie", rplus clsS, rlit "sanders", rplus clsS, rlit "for",
         rplus clsS, rlit "president"]

/-- `^sanders\s+for\s+president`. -/
def berniePat2 : RE :=
  reseq [.bos, rlit "sanders", rplus clsS, rlit "for", rplus clsS, rlit "president"]

/-- `^bernie\s+sanders$`. -/
def berniePat3 : RE :=
  reseq [.bos, rlit "bernie", rplus clsS, rlit "sanders", .eos]

/-- The patterns of the `bernie sanders` entry of `CANONICAL_NAMES`. -/
def berniePats : List RE :=
  [berniePat1, berniePat2, berniePat3]

/-- `CANONICAL_NAMES` of `standardize_sponsors.py`, in dict insertion order:
`(key, canonical, patterns)`. -/
def CANONICAL_NAMES : List (String × String × List RE) :=
  [("kamala harris", "Kamala Harris for President", kamalaPats),
   ("joe biden", "Joe Biden for President", bidenPats),
   ("donald trump", "Donald Trump for President", trumpPats),
   ("bernie sanders", "Bernie Sanders for President", berniePats)]

/-- `match_canonical_name` of `standardize_sponsors.py`. -/
def match_canonical_name (sponsor : Option String) : Option String :=
  match sponsor with
  | none => none
  | some s =>
    if s = "" then none
    else
      let sl := pyStripL (pyLowerL s.data)
      CANONICAL_NAMES.findSome?
        (fun e => if e.2.2.any (fun p => reMatchB p sl) then some e.2.1 else none)

/-- The `acronyms` set of `standardize_sponsor_basic`. -/
def acronymsList : List String :=
  ["PAC", "INC", "LLC", "USA", "US", "MAGA", "NAACP", "DNC", "RNC",
   "GOP", "FEC", "EEO", "NC", "DC", "LA", "NY", "CA", "TX", "FL",
   "VA", "MD", "GA", "MI", "OH", "PA", "AZ", "NV", "WI", "MN",
   "CO", "OR", "WA", "MA", "NJ", "CT", "IL", "TN", "SC",
   "ACTUM", "YES", "NO", "PROP", "DA", "CEO", "CFO", "VP", "AG",
   "HD", "FM", "AM", "TV", "WLLD", "KLCA", "FF", "AI", "IT", "II", "III"]

/-- The `lowercase_words` set of `standardize_sponsor_basic`. -/
def lowercaseWords : List String :=
  ["for", "of", "the", "and", "or", "in", "on", "at", "to", "a", "an",
   "as", "but", "by", "nor", "so", "yet", "vs", "v"]

/-- The characters `str.strip('.,!?;:')` removes. -/
def punctChars : List Char := ['.', ',', '!', '?', ';', ':']

/-- The per-word step of `standardize_sponsor_basic` (`i` is the word's
position). -/
def basicWord (i : Nat) (w : List Char) : List Char :=
  let word_upper := pyStripCharsL punctChars (pyUpperL w)
  if acronymsList.contains (String.mk word_upper) then word_upper
  else if decide (0 < i) && lowercaseWords.contains (String.mk (pyLowerL w)) then pyLowerL w
  else if pyUpperL w == w && decide (1 < w.length) then pyTitleL w
  else pyTitleL w

/-- `\bFor (President|Senate|Congress|Governor|Mayor|Council)\b`. -/
def patForFix : RE :=
  reseq [.wb, rlit "For ",
         .alt (rlit "President") (.alt (rlit "Senate") (.alt (rlit "Congress")
           (.alt (rlit "Governor") (.alt (rlit "Mayor") (rlit "Council"))))),
         .wb]

/-- `\bOf\b`. -/
def patOfFix : RE :=
  reseq [.wb, rlit "Of", .wb]

/-- `(?<!^)\bThe\b`. -/
def patTheFix : RE :=
  reseq [.nlb, .wb, rlit "The", .wb]

/-- `standardize_sponsor_basic` of `standardize_sponsors.py`.  The
replacement `r'for \1'` of the first fix keeps the captured office word,
that is, everything of the match after `For `. -/
def standardize_sponsor_basic (sponsor : Option String) : Option String :=
  match sponsor with
  | none => none
  | some s =>
    if s = "" || pyStripL s.data = [] then none
    else
      let words := pySplitWS s.data
      let standardized := words.enum.map (fun iw => basicWord iw.1 iw.2)
      let r0 := List.intercalate [' '] standardized
      let r1 := pySub patForFix (fun m => "for ".data ++ m.drop 4) r0
      let r2 := pySub patOfFix (fun _ => "of".data) r1
      let r3 := pySub patTheFix (fun _ => "the".data) r2
      let r4 := pyReplaceS (pyReplaceS (pyReplaceS (String.mk r3) " Pac" " PAC") " Inc" " INC") " Llc" " LLC"
      some r4

/-- `standardize_sponsor_advanced` of `standardize_sponsors.py`: clean, then
canonical matching, then basic standardization. -/
def standardize_sponsor_advanced (sponsor : Option String) : Option String :=
  match sponsor with
  | none => none
  | some s =>
    if s = "" then none
    else
      match clean_sponsor_name (some s) with
      | none => none
      | some c =>
        if c = "" then none
        else
          match match_canonical_name (some c) with
          | some canonical => some canonical
          | none => standardize_sponsor_basic (some c)

/-! ### `the RSS feed script`: accumulating feed entries (claim C8) -/

/-- A feed entry as `parse_feed` builds it. -/
structure Entry where
  title : String
  url : String
  id : String
  updated : String
  facility_id : Option Int
  office : Option String
  sponsor : String
  station_url : String
  state : Option String
  city : Option String
deriving DecidableEq, Repr

/-- The accumulation loop of `fetch_rss_entries`: walk the parsed feed
entries in order and append each one whose id does not occur in the
accumulated data. -/
def fetchAppend (existing newEntries : List Entry) : List Entry :=
  newEntries.foldl
    (fun acc e => if acc.any (fun x => x.id == e.id) then acc else acc ++ [e])
    existing

theorem fetchAppend_spec (newEntries : List Entry) : ∀ existing : List Entry,
    (existing.map Entry.id).Nodup →
    (∃ suffix, fetchAppend existing newEntries = existing ++ suffix ∧
      ∀ e ∈ suffix, e ∈ newEntries) ∧
    ((fetchAppend existing newEntries).map Entry.id).Nodup := by
  induction newEntries with
  | nil =>
    intro existing h
    exact ⟨⟨[], by simp [fetchAppend], by simp⟩, by simpa [fetchAppend] using h⟩
  | cons e rest ih =>
    intro existing h
    have hstep : fetchAppend existing (e :: rest) =
        fetchAppend (if existing.any (fun x => x.id == e.id) then existing
                     else existing ++ [e]) rest := by
      simp [fetchAppend, List.foldl_cons]
    cases hc : existing.any (fun x => x.id == e.id) with
    | true =>
      rw [hstep, if_pos hc]
      obtain ⟨⟨suf, heq, hsub⟩, hnd⟩ := ih existing h
      exact ⟨⟨suf, heq, fun x hx => List.mem_cons_of_mem e (hsub x hx)⟩, hnd⟩
    | false =>
      have hnotin : ∀ x ∈ existing, x.id ≠ e.id := by
        intro x hx hcontra
        have : existing.any (fun y => y.id == e.id) = true :=
          List.any_eq_true.mpr ⟨x, hx, by simp [hcontra]⟩
        rw [hc] at this
        exact Bool.false_ne_true this
      have h' : ((existing ++ [e]).map Entry.id).Nodup := by
        rw [List.map_append]
        refine List.Nodup.append h (by simp) ?_
        intro a ha hb
        simp only [List.map_cons, List.map_nil, List.mem_singleton] at hb
        subst hb
        obtain ⟨x, hx, hxid⟩ := List.mem_map.mp ha
        exact hnotin x hx hxid
      rw [hstep, if_neg (by simp [hc])]
      obtain ⟨⟨suf, heq, hsub⟩, hnd⟩ := ih (existing ++ [e]) h'
      refine ⟨⟨e :: suf, ?_, ?_⟩, hnd⟩
      · rw [heq, List.append_assoc]
        rfl
      · intro x hx
        rcases List.mem_cons.mp hx with hx | hx
        · exact hx ▸ List.mem_cons_self e rest
        · exact List.mem_cons_of_mem e (hsub x hx)

/-- C8: `fetch_rss_entries` is append-only and preserves id uniqueness:
when the pre-existing entries have pairwise distinct ids, the result keeps
every pre-existing entry unchanged in its original position (the output is
`existing ++ suffix`), appends only entries that came from the feed, and
the ids of the final output are pairwise distinct (so an entry is appended
only when its id is not already present). -/
theorem C8_fetchAppend_append_only (existing newEntries : List Entry)
    (h : (existing.map Entry.id).Nodup) :
    (∃ suffix, fetchAppend existing newEntries = existing ++ suffix ∧
      ∀ e ∈ suffix, e ∈ newEntries) ∧
    ((fetchAppend existing newEntries).map Entry.id).Nodup :=
  fetchAppend_spec newEntries existing h

/-- A sample entry used by witnesses. -/
def mkEntry (i : String) : Entry :=
  ⟨"title " ++ i, "url", i, "2024-01-01", none, none, "sponsor", "su", none, none⟩

/-- C8 witness: a concrete run with a duplicate id in the feed. -/
theorem C8_fetchAppend_witness :
    (([mkEntry "a"].map Entry.id).Nodup) ∧
    ((fetchAppend [mkEntry "a"] [mkEntry "a", mkEntry "b"]).map Entry.id).Nodup := by
  refine ⟨by decide, ?_⟩
  exact (C8_fetchAppend_append_only [mkEntry "a"] [mkEntry "a", mkEntry "b"] (by decide)).2

/-! ### `standardize_sponsors.py`: record-level passes (claims C7, C9) -/

/-- A tagged record as `standardize_sponsors.py` sees it: the fields its
logic reads, plus `rest` for every other field of the JSON object (copied
untouched by `record.copy()`). -/
structure SRecord where
  record_type : String
  sponsor : Option String
  office : Option String
  sponsor_normalized : Option String
  rest : List (String × String)
deriving DecidableEq, Repr

instance : Inhabited SRecord := ⟨⟨"", none, none, none, []⟩⟩

/-- Python `a or b` for a string fallback (`standardize_sponsor_basic(sponsor)
or sponsor`). -/
def pyOrStr (a : Option String) (b : String) : String :=
  match a with
  | some x => if x ≠ "" then x else b
  | none => b

/-- The per-record step of `apply_advanced_standardization`:
`record.copy()` plus the three-way `sponsor_normalized` assignment. -/
def applyStep (mapping : List (String × String)) (record : SRecord) : SRecord :=
  match record.sponsor with
  | none => { record with sponsor_normalized := none }
  | some s =>
    if s = "" then { record with sponsor_normalized := none }
    else
      match mapping.lookup s with
      | some std => { record with sponsor_normalized := some std }
      | none =>
        let nzd := some (pyOrStr (standardize_sponsor_basic (some s)) s)
        { record with sponsor_normalized := nzd }

/-- `apply_advanced_standardization` of `standardize_sponsors.py`. -/
def apply_advanced_standardization (data : List SRecord)
    (mapping : List (String × String)) : List SRecord :=
  data.map (applyStep mapping)

theorem applyStep_frame (mapping : List (String × String)) (r : SRecord) :
    (applyStep mapping r).record_type = r.record_type ∧
    (applyStep mapping r).sponsor = r.sponsor ∧
    (applyStep mapping r).office = r.office ∧
    (applyStep mapping r).rest = r.rest ∧
    ((applyStep mapping r).sponsor_normalized = none ↔
      (r.sponsor = none ∨ r.sponsor = some "")) := by
  unfold applyStep
  match hs : r.sponsor with
  | none => simp [hs]
  | some s =>
    by_cases he : s = ""
    · subst he
      simp [hs]
    · cases hl : mapping.lookup s with
      | some std => simp [hs, he, hl]
      | none => simp [hs, he, hl]

/-- C9: `apply_advanced_standardization` returns a list of the same length
in the same order; each output record agrees with the corresponding input
record on every field other than `sponsor_normalized`, and the added
`sponsor_normalized` is `None` exactly when the input's sponsor is missing
or falsy. -/
theorem C9_apply_standardization_frame (data : List SRecord)
    (mapping : List (String × String)) :
    (apply_advanced_standardization data mapping).length = data.length ∧
    ∀ i : Nat, ∀ hi : i < data.length,
      ((apply_advanced_standardization data mapping).get
          ⟨i, by simpa [apply_advanced_standardization] using hi⟩).record_type
          = (data.get ⟨i, hi⟩).record_type ∧
      ((apply_advanced_standardization data mapping).get
          ⟨i, by simpa [apply_advanced_standardization] using hi⟩).sponsor
          = (data.get ⟨i, hi⟩).sponsor ∧
      ((apply_advanced_standardization data mapping).get
          ⟨i, by simpa [apply_advanced_standardization] using hi⟩).office
          = (data.get ⟨i, hi⟩).office ∧
      ((apply_advanced_standardization data mapping).get
          ⟨i, by simpa [apply_advanced_standardization] using hi⟩).rest
          = (data.get ⟨i, hi⟩).rest ∧
      (((apply_advanced_standardization data mapping).get
          ⟨i, by simpa [apply_advanced_standardization] using hi⟩).sponsor_normalized = none ↔
        ((data.get ⟨i, hi⟩).sponsor = none ∨ (data.get ⟨i, hi⟩).sponsor = some "")) := by
  refine ⟨by simp [apply_advanced_standardization], ?_⟩
  intro i hi
  have hg : (apply_advanced_standardization data mapping).get
      ⟨i, by simpa [apply_advanced_standardization] using hi⟩
      = applyStep mapping (data.get ⟨i, hi⟩) := by
    simp [apply_advanced_standardization]
  rw [hg]
  exact applyStep_frame mapping (data.get ⟨i, hi⟩)

/-- Python truthiness of an optional string. -/
def truthyStr : Option String → Bool
  | none => false
  | some s => s != ""

/-- The `political_records` filter of `create_advanced_mapping`. -/
def politicalFilter (d : SRecord) : Bool :=
  (d.record_type == "political_ad" || d.record_type == "political_matters") &&
  truthyStr d.sponsor &&
  !(pyContains (d.sponsor.getD "") "Entity") &&
  !(d.sponsor == d.office)

/-- The mapping-building loop of `create_advanced_mapping`: an
insertion-ordered dict as an association list. -/
def buildMappingGo (m : List (String × String)) : List SRecord → List (String × String)
  | [] => m
  | r :: rest =>
    let original := r.sponsor.getD ""
    if (m.lookup original).isSome then buildMappingGo m rest
    else
      match standardize_sponsor_advanced (some original) with
      | some std =>
        if std ≠ "" then buildMappingGo (m ++ [(original, std)]) rest
        else buildMappingGo m rest
      | none => buildMappingGo m rest

/-- `sponsor_counts[k]` over the filtered records. -/
def sponsorCount (recs : List SRecord) (k : String) : Nat :=
  (recs.filter (fun r => r.sponsor.getD "" == k)).length

/-- Append `pr` to the bucket of `std` in the (insertion-ordered) reverse
mapping, creating the bucket at the end when absent (`defaultdict(list)`). -/
def revInsert (std : String) (pr : String × Nat) :
    List (String × List (String × Nat)) → List (String × List (String × Nat))
  | [] => [(std, [pr])]
  | (k, v) :: rest =>
    if k == std then (k, v ++ [pr]) :: rest else (k, v) :: revInsert std pr rest

/-- The `reverse_mapping` loop of `create_advanced_mapping`. -/
def buildReverse (recs : List SRecord) :
    List (String × String) → List (String × List (String × Nat)) →
    List (String × List (String × Nat))
  | [], acc => acc
  | (orig, std) :: rest, acc =>
    buildReverse recs rest (revInsert std (orig, sponsorCount recs orig) acc)

/-- One entry of the variations report. -/
structure VariationEntry where
  standardized : String
  variations : List (String × Nat)
  total : Nat
deriving DecidableEq, Repr

/-- Sum of the per-variation counts. -/
def sumCounts (v : List (String × Nat)) : Nat :=
  (v.map Prod.snd).sum

/-- Stable insertion for the report sort (ascending in `-total`, that is,
descending in `total`; stable like Python's `list.sort`). -/
def sortInsert (x : VariationEntry) : List VariationEntry → List VariationEntry
  | [] => [x]
  | y :: ys => if x.total < y.total then y :: sortInsert x ys else x :: y :: ys

/-- `variations_report.sort(key=lambda x: -x['total'])`. -/
def sortVariations : List VariationEntry → List VariationEntry
  | [] => []
  | x :: xs => sortInsert x (sortVariations xs)

/-- The statistics triple of `create_advanced_mapping`. -/
structure MappingStats where
  original_count : Nat
  standardized_count : Nat
  merged_count : Int
deriving DecidableEq, Repr

/-- `create_advanced_mapping` of `standardize_sponsors.py`: the sponsor
mapping, the variations report and the statistics. -/
def create_advanced_mapping (data : List SRecord) :
    List (String × String) × List VariationEntry × MappingStats :=
  let political_records := data.filter politicalFilter
  let mapping := buildMappingGo [] political_records
  let original_count := (mapping.map Prod.fst).eraseDups.length
  let standardized_count := (mapping.map Prod.snd).eraseDups.length
  let merged_count : Int := (original_count : Int) - (standardized_count : Int)
  let reverse_mapping := buildReverse political_records mapping []
  let variations_report :=
    sortVariations ((reverse_mapping.filter (fun kv => 1 < kv.2.length)).map
      (fun kv => ⟨kv.1, kv.2, sumCounts kv.2⟩))
  (mapping, variations_report, ⟨original_count, standardized_count, merged_count⟩)

/-- C7: the classification and normalization transforms are deterministic
and share no runtime state: two runs of `categorize_record`,
`create_advanced_mapping` or `apply_advanced_standardization` on equal
inputs give equal outputs (record types, mapping, variations report,
statistics and standardized record list).  In this embedding all three are
pure functions of their arguments alone. -/
theorem C7_transforms_deterministic (i1 i2 : Item) (d1 d2 : List SRecord)
    (m1 m2 : List (String × String))
    (hi : i1 = i2) (hd : d1 = d2) (hm : m1 = m2) :
    categorize_record i1 = categorize_record i2 ∧
    create_advanced_mapping d1 = create_advanced_mapping d2 ∧
    apply_advanced_standardization d1 m1 = apply_advanced_standardization d2 m2 := by
  subst hi
  subst hd
  subst hm
  exact ⟨rfl, rfl, rfl⟩

/-- C7 witness: two runs on a concrete equal input agree. -/
theorem C7_transforms_deterministic_witness :
    categorize_record ⟨some "x in Political Files/2024 on 1", none, none⟩ =
      categorize_record ⟨some "x in Political Files/2024 on 1", none, none⟩ ∧
    create_advanced_mapping [] = create_advanced_mapping [] ∧
    apply_advanced_standardization [] [] = apply_advanced_standardization [] [] :=
  C7_transforms_deterministic _ _ [] [] [] [] rfl rfl rfl

/-! ### Engine lemmas: a canonical pattern forces its first two characters -/

theorem mrun_seq (fuel : Nat) (a b : RE) (p : Option Char) (l : List Char)
    (k : Option Char → List Char → Option (List Char)) :
    mrun (fuel + 1) (.seq a b) p l k = mrun fuel a p l (fun p' l' => mrun fuel b p' l' k) := rfl

theorem mrun_bos (fuel : Nat) (p : Option Char) (l : List Char)
    (k : Option Char → List Char → Option (List Char)) :
    mrun (fuel + 1) .bos p l k = if p.isNone then k p l else none := rfl

theorem mrun_lit_nil (fuel : Nat) (c : Char) (p : Option Char)
    (k : Option Char → List Char → Option (List Char)) :
    mrun (fuel + 1) (.lit c) p [] k = none := rfl

theorem mrun_lit_cons (fuel : Nat) (c x : Char) (p : Option Char) (xs : List Char)
    (k : Option Char → List Char → Option (List Char)) :
    mrun (fuel + 1) (.lit c) p (x :: xs) k = if x == c then k (some x) xs else none := rfl

theorem mrun_bos_shape (fuel : Nat) (p : Option Char) (l : List Char)
    (k : Option Char → List Char → Option (List Char))
    (h : mrun fuel .bos p l k ≠ none) : k p l ≠ none := by
  rcases fuel with _ | f
  · exact absurd rfl h
  · rw [mrun_bos] at h
    by_cases hp : p.isNone
    · rwa [if_pos hp] at h
    · rw [if_neg hp] at h
      exact absurd rfl h

/-- A successful match of `^` followed by a literal word (inside a longer
sequence) forces the word's first two characters. -/
theorem mrun_shapeA (c1 c2 : Char) (x y : RE) (fu : Nat) (l : List Char)
    (k : Option Char → List Char → Option (List Char))
    (h : mrun fu (RE.seq .bos (RE.seq (RE.seq (.lit c1) (RE.seq (.lit c2) x)) y)) none l k ≠ none) :
    ∃ rest, l = c1 :: c2 :: rest := by
  rcases fu with _ | f1
  · exact absurd rfl h
  rw [mrun_seq] at h
  have h2 := mrun_bos_shape f1 none l _ h
  rcases f1 with _ | f2
  · exact absurd rfl h2
  rw [mrun_seq] at h2
  rcases f2 with _ | f3
  · exact absurd rfl h2
  rw [mrun_seq] at h2
  rcases f3 with _ | f4
  · exact absurd rfl h2
  rcases l with _ | ⟨x0, xs⟩
  · rw [mrun_lit_nil] at h2
    exact absurd rfl h2
  rw [mrun_lit_cons] at h2
  by_cases hx : (x0 == c1) = true
  swap
  · rw [if_neg hx] at h2
    exact absurd rfl h2
  rw [if_pos hx] at h2
  rw [mrun_seq] at h2
  rcases f4 with _ | f5
  · exact absurd rfl h2
  rcases xs with _ | ⟨x1, xs1⟩
  · rw [mrun_lit_nil] at h2
    exact absurd rfl h2
  rw [mrun_lit_cons] at h2
  by_cases hx1 : (x1 == c2) = true
  swap
  · rw [if_neg hx1] at h2
    exact absurd rfl h2
  have e0 : x0 = c1 := eq_of_beq hx
  have e1 : x1 = c2 := eq_of_beq hx1
  exact ⟨xs1, by rw [e0, e1]⟩

/-- Like `mrun_shapeA` for a pattern that is just `^` and a literal word. -/
theorem mrun_shapeB (c1 c2 : Char) (x : RE) (fu : Nat) (l : List Char)
    (k : Option Char → List Char → Option (List Char))
    (h : mrun fu (RE.seq .bos (RE.seq (.lit c1) (RE.seq (.lit c2) x))) none l k ≠ none) :
    ∃ rest, l = c1 :: c2 :: rest := by
  rcases fu with _ | f1
  · exact absurd rfl h
  rw [mrun_seq] at h
  have h2 := mrun_bos_shape f1 none l _ h
  rcases f1 with _ | f2
  · exact absurd rfl h2
  rw [mrun_seq] at h2
  rcases f2 with _ | f3
  · exact absurd rfl h2
  rcases l with _ | ⟨x0, xs⟩
  · rw [mrun_lit_nil] at h2
    exact absurd rfl h2
  rw [mrun_lit_cons] at h2
  by_cases hx : (x0 == c1) = true
  swap
  · rw [if_neg hx] at h2
    exact absurd rfl h2
  rw [if_pos hx] at h2
  rw [mrun_seq] at h2
  rcases f3 with _ | f4
  · exact absurd rfl h2
  rcases xs with _ | ⟨x1, xs1⟩
  · rw [mrun_lit_nil] at h2
    exact absurd rfl h2
  rw [mrun_lit_cons] at h2
  by_cases hx1 : (x1 == c2) = true
  swap
  · rw [if_neg hx1] at h2
    exact absurd rfl h2
  have e0 : x0 = c1 := eq_of_beq hx
  have e1 : x1 = c2 := eq_of_beq hx1
  exact ⟨xs1, by rw [e0, e1]⟩

theorem kamalaPat1_first2 (l : List Char) (h : reMatchB kamalaPat1 l = true) :
    ∃ r, l = 'k' :: 'a' :: r := by
  unfold reMatchB at h
  have h2 : matchHere kamalaPat1 none l ≠ none := by
    intro hc
    rw [hc] at h
    simp at h
  unfold matchHere at h2
  exact mrun_shapeA 'k' 'a' _ _ _ l _ h2

theorem kamalaPat2_first2 (l : List Char) (h : reMatchB kamalaPat2 l = true) :
    ∃ r, l = 'h' :: 'a' :: r := by
  unfold reMatchB at h
  have h2 : matchHere kamalaPat2 none l ≠ none := by
    intro hc
    rw [hc] at h
    simp at h
  unfold matchHere at h2
  exact mrun_shapeA 'h' 'a' _ _ _ l _ h2

theorem kamalaPat3_first2 (l : List Char) (h : reMatchB kamalaPat3 l = true) :
    ∃ r, l = 'k' :: 'a' :: r := by
  unfold reMatchB at h
  have h2 : matchHere kamalaPat3 none l ≠ none := by
    intro hc
    rw [hc] at h
    simp at h
  unfold matchHere at h2
  exact mrun_shapeA 'k' 'a' _ _ _ l _ h2

theorem kamalaPat4_first2 (l : List Char) (h : reMatchB kamalaPat4 l = true) :
    ∃ r, l = 'h' :: 'a' :: r := by
  unfold reMatchB at h
  have h2 : matchHere kamalaPat4 none l ≠ none := by
    intro hc
    rw [hc] at h
    simp at h
  unfold matchHere at h2
  exact mrun_shapeA 'h' 'a' _ _ _ l _ h2

theorem kamalaPat6_first2 (l : List Char) (h : reMatchB kamalaPat6 l = true) :
    ∃ r, l = 'k' :: 'a' :: r := by
  unfold reMatchB at h
  have h2 : matchHere kamalaPat6 none l ≠ none := by
    intro hc
    rw [hc] at h
    simp at h
  unfold matchHere at h2
  exact mrun_shapeA 'k' 'a' _ _ _ l _ h2

theorem bidenPat1_first2 (l : List Char) (h : reMatchB bidenPat1 l = true) :
    ∃ r, l = 'j' :: 'o' :: r := by
  unfold reMatchB at h
  have h2 : matchHere bidenPat1 none l ≠ none := by
    intro hc
    rw [hc] at h
    simp at h
  unfold matchHere at h2
  exact mrun_shapeA 'j' 'o' _ _ _ l _ h2

theorem bidenPat2_first2 (l : List Char) (h : reMatchB bidenPat2 l = true) :
    ∃ r, l = 'b' :: 'i' :: r := by
  unfold reMatchB at h
  have h2 : matchHere bidenPat2 none l ≠ none := by
    intro hc
    rw [hc] at h
    simp at h
  unfold matchHere at h2
  exact mrun_shapeA 'b' 'i' _ _ _ l _ h2

theorem bidenPat3_first2 (l : List Char) (h : reMatchB bidenPat3 l = true) :
    ∃ r, l = 'j' :: 'o' :: r := by
  unfold reMatchB at h
  have h2 : matchHere bidenPat3 none l ≠ none := by
    intro hc
    rw [hc] at h
    simp at h
  unfold matchHere at h2
  exact mrun_shapeA 'j' 'o' _ _ _ l _ h2

theorem bidenPat4_first2 (l : List Char) (h : reMatchB bidenPat4 l = true) :
    ∃ r, l = 'j' :: 'o' :: r := by
  unfold reMatchB at h
  have h2 : matchHere bidenPat4 none l ≠ none := by
    intro hc
    rw [hc] at h
    simp at h
  unfold matchHere at h2
  exact mrun_shapeA 'j' 'o' _ _ _ l _ h2

theorem bidenPat5_first2 (l : List Char) (h : reMatchB bidenPat5 l = true) :
    ∃ r, l = 'j' :: 'o' :: r := by
  unfold reMatchB at h
  have h2 : matchHere bidenPat5 none l ≠ none := by
    intro hc
    rw [hc] at h
    simp at h
  unfold matchHere at h2
  exact mrun_shapeA 'j' 'o' _ _ _ l _ h2

theorem bidenPat6_first2 (l : List Char) (h : reMatchB bidenPat6 l = true) :
    ∃ r, l = 'b' :: 'i' :: r := by
  unfold reMatchB at h
  have h2 : matchHere bidenPat6 none l ≠ none := by
    intro hc
    rw [hc] at h
    simp at h
  unfold matchHere at h2
  exact mrun_shapeA 'b' 'i' _ _ _ l _ h2

theorem trumpPat1_first2 (l : List Char) (h : reMatchB trumpPat1 l = true) :
    ∃ r, l = 'd' :: 'o' :: r := by
  unfold reMatchB at h
  have h2 : matchHere trumpPat1 none l ≠ none := by
    intro hc
    rw [hc] at h
    simp at h
  unfold matchHere at h2
  exact mrun_shapeA 'd' 'o' _ _ _ l _ h2

theorem trumpPat2_first2 (l : List Char) (h : reMatchB trumpPat2 l = true) :
    ∃ r, l = 'd' :: 'o' :: r := by
  unfold reMatchB at h
  have h2 : matchHere trumpPat2 none l ≠ none := by
    intro hc
    rw [hc] at h
    simp at h
  unfold matchHere at h2
  exact mrun_shapeA 'd' 'o' _ _ _ l _ h2

theorem trumpPat3_first2 (l : List Char) (h : reMatchB trumpPat3 l = true) :
    ∃ r, l = 't' :: 'r' :: r := by
  unfold reMatchB at h
  have h2 : matchHere trumpPat3 none l ≠ none := by
    intro hc
    rw [hc] at h
    simp at h
  unfold matchHere at h2
  exact mrun_shapeA 't' 'r' _ _ _ l _ h2

theorem trumpPat4_first2 (l : List Char) (h : reMatchB trumpPat4 l = true) :
    ∃ r, l = 'd' :: 'o' :: r := by
  unfold reMatchB at h
  have h2 : matchHere trumpPat4 none l ≠ none := by
    intro hc
    rw [hc] at h
    simp at h
  unfold matchHere at h2
  exact mrun_shapeA 'd' 'o' _ _ _ l _ h2

theorem trumpPat5_first2 (l : List Char) (h : reMatchB trumpPat5 l = true) :
    ∃ r, l = 'd' :: 'o' :: r := by
  unfold reMatchB at h
  have h2 : matchHere trumpPat5 none l ≠ none := by
    intro hc
    rw [hc] at h
    simp at h
  unfold matchHere at h2
  exact mrun_shapeA 'd' 'o' _ _ _ l _ h2

theorem berniePat1_first2 (l : List Char) (h : reMatchB berniePat1 l = true) :
    ∃ r, l = 'b' :: 'e' :: r := by
  unfold reMatchB at h
  have h2 : matchHere berniePat1 none l ≠ none := by
    intro hc
    rw [hc] at h
    simp at h
  unfold matchHere at h2
  exact mrun_shapeA 'b' 'e' _ _ _ l _ h2

theorem berniePat2_first2 (l : List Char) (h : reMatchB berniePat2 l = true) :
    ∃ r, l = 's' :: 'a' :: r := by
  unfold reMatchB at h
  have h2 : matchHere berniePat2 none l ≠ none := by
    intro hc
    rw [hc] at h
    simp at h
  unfold matchHere at h2
  exact mrun_shapeA 's' 'a' _ _ _ l _ h2

theorem berniePat3_first2 (l : List Char) (h : reMatchB berniePat3 l = true) :
    ∃ r, l = 'b' :: 'e' :: r := by
  unfold reMatchB at h
  have h2 : matchHere berniePat3 none l ≠ none := by
    intro hc
    rw [hc] at h
    simp at h
  unfold matchHere at h2
  exact mrun_shapeA 'b' 'e' _ _ _ l _ h2

theorem kamalaPat5_first2 (l : List Char) (h : reMatchB kamalaPat5 l = true) :
    ∃ r, l = 'h' :: 'a' :: r := by
  unfold reMatchB at h
  have h2 : matchHere kamalaPat5 none l ≠ none := by
    intro hc
    rw [hc] at h
    simp at h
  unfold matchHere at h2
  exact mrun_shapeB 'h' 'a' _ _ l _ h2

/-- Strings matching some `kamala harris` pattern start with `ka` or `ha`. -/
theorem kamala_any_first2 (l : List Char)
    (h : kamalaPats.any (fun p => reMatchB p l) = true) :
    (∃ r, l = 'k' :: 'a' :: r) ∨ (∃ r, l = 'h' :: 'a' :: r) := by
  rw [List.any_eq_true] at h
  obtain ⟨p, hp, hm⟩ := h
  simp only [kamalaPats, List.mem_cons, List.not_mem_nil, or_false] at hp
  rcases hp with rfl | rfl | rfl | rfl | rfl | rfl
  · exact Or.inl (kamalaPat1_first2 l hm)
  · exact Or.inr (kamalaPat2_first2 l hm)
  · exact Or.inl (kamalaPat3_first2 l hm)
  · exact Or.inr (kamalaPat4_first2 l hm)
  · exact Or.inr (kamalaPat5_first2 l hm)
  · exact Or.inl (kamalaPat6_first2 l hm)

/-- Strings matching some `joe biden` pattern start with `jo` or `bi`. -/
theorem biden_any_first2 (l : List Char)
    (h : bidenPats.any (fun p => reMatchB p l) = true) :
    (∃ r, l = 'j' :: 'o' :: r) ∨ (∃ r, l = 'b' :: 'i' :: r) := by
  rw [List.any_eq_true] at h
  obtain ⟨p, hp, hm⟩ := h
  simp only [bidenPats, List.mem_cons, List.not_mem_nil, or_false] at hp
  rcases hp with rfl | rfl | rfl | rfl | rfl | rfl
  · exact Or.inl (bidenPat1_first2 l hm)
  · exact Or.inr (bidenPat2_first2 l hm)
  · exact Or.inl (bidenPat3_first2 l hm)
  · exact Or.inl (bidenPat4_first2 l hm)
  · exact Or.inl (bidenPat5_first2 l hm)
  · exact Or.inr (bidenPat6_first2 l hm)

/-- Strings matching some `donald trump` pattern start with `do` or `tr`. -/
theorem trump_any_first2 (l : List Char)
    (h : trumpPats.any (fun p => reMatchB p l) = true) :
    (∃ r, l = 'd' :: 'o' :: r) ∨ (∃ r, l = 't' :: 'r' :: r) := by
  rw [List.any_eq_true] at h
  obtain ⟨p, hp, hm⟩ := h
  simp only [trumpPats, List.mem_cons, List.not_mem_nil, or_false] at hp
  rcases hp with rfl | rfl | rfl | rfl | rfl
  · exact Or.inl (trumpPat1_first2 l hm)
  · exact Or.inl (trumpPat2_first2 l hm)
  · exact Or.inr (trumpPat3_first2 l hm)
  · exact Or.inl (trumpPat4_first2 l hm)
  · exact Or.inl (trumpPat5_first2 l hm)

/-- Strings matching some `bernie sanders` pattern start with `be` or `sa`. -/
theorem bernie_any_first2 (l : List Char)
    (h : berniePats.any (fun p => reMatchB p l) = true) :
    (∃ r, l = 'b' :: 'e' :: r) ∨ (∃ r, l = 's' :: 'a' :: r) := by
  rw [List.any_eq_true] at h
  obtain ⟨p, hp, hm⟩ := h
  simp only [berniePats, List.mem_cons, List.not_mem_nil, or_false] at hp
  rcases hp with rfl | rfl | rfl
  · exact Or.inl (berniePat1_first2 l hm)
  · exact Or.inr (berniePat2_first2 l hm)
  · exact Or.inl (berniePat3_first2 l hm)

/-- A list cannot start with two different two-character prefixes. -/
theorem two_heads_ne {l : List Char} {a b c d : Char}
    (h1 : ∃ r, l = a :: b :: r) (h2 : ∃ r, l = c :: d :: r)
    (hne : ¬(a = c ∧ b = d)) : False := by
  obtain ⟨r1, e1⟩ := h1
  obtain ⟨r2, e2⟩ := h2
  rw [e1] at e2
  injection e2 with ha e2
  injection e2 with hb _
  exact hne ⟨ha, hb⟩

theorem matchC_of_entry (cl : String) (key canon : String) (pats : List RE)
    (hmem : (key, canon, pats) ∈ CANONICAL_NAMES) (hcl : cl ≠ "")
    (hmatch : pats.any (fun p => reMatchB p (pyStripL (pyLowerL cl.data))) = true) :
    match_canonical_name (some cl) = some canon := by
  unfold match_canonical_name
  dsimp only
  rw [if_neg hcl]
  simp only [CANONICAL_NAMES, List.mem_cons, List.not_mem_nil, or_false,
    Prod.mk.injEq] at hmem
  rcases hmem with ⟨h1, h2, h3⟩ | ⟨h1, h2, h3⟩ | ⟨h1, h2, h3⟩ | ⟨h1, h2, h3⟩ <;>
    subst h1 <;> subst h2 <;> subst h3
  · simp only [CANONICAL_NAMES, List.findSome?_cons, List.findSome?_nil]
    rw [hmatch]
    rfl
  · have hkF : kamalaPats.any (fun p => reMatchB p (pyStripL (pyLowerL cl.data))) = false := by
      cases hck : kamalaPats.any (fun p => reMatchB p (pyStripL (pyLowerL cl.data)))
      · rfl
      · exfalso
        rcases kamala_any_first2 _ hck with ha | ha <;>
          rcases biden_any_first2 _ hmatch with hb | hb <;>
            exact two_heads_ne ha hb (by decide)
    simp only [CANONICAL_NAMES, List.findSome?_cons, List.findSome?_nil]
    rw [hkF, hmatch]
    rfl
  · have hkF : kamalaPats.any (fun p => reMatchB p (pyStripL (pyLowerL cl.data))) = false := by
      cases hck : kamalaPats.any (fun p => reMatchB p (pyStripL (pyLowerL cl.data)))
      · rfl
      · exfalso
        rcases kamala_any_first2 _ hck with ha | ha <;>
          rcases trump_any_first2 _ hmatch with hb | hb <;>
            exact two_heads_ne ha hb (by decide)
    have hbF : bidenPats.any (fun p => reMatchB p (pyStripL (pyLowerL cl.data))) = false := by
      cases hck : bidenPats.any (fun p => reMatchB p (pyStripL (pyLowerL cl.data)))
      · rfl
      · exfalso
        rcases biden_any_first2 _ hck with ha | ha <;>
          rcases trump_any_first2 _ hmatch with hb | hb <;>
            exact two_heads_ne ha hb (by decide)
    simp only [CANONICAL_NAMES, List.findSome?_cons, List.findSome?_nil]
    rw [hkF, hbF, hmatch]
    rfl
  · have hkF : kamalaPats.any (fun p => reMatchB p (pyStripL (pyLowerL cl.data))) = false := by
      cases hck : kamalaPats.any (fun p => reMatchB p (pyStripL (pyLowerL cl.data)))
      · rfl
      · exfalso
        rcases kamala_any_first2 _ hck with ha | ha <;>
          rcases bernie_any_first2 _ hmatch with hb | hb <;>
            exact two_heads_ne ha hb (by decide)
    have hbF : bidenPats.any (fun p => reMatchB p (pyStripL (pyLowerL cl.data))) = false := by
      cases hck : bidenPats.any (fun p => reMatchB p (pyStripL (pyLowerL cl.data)))
      · rfl
      · exfalso
        rcases biden_any_first2 _ hck with ha | ha <;>
          rcases bernie_any_first2 _ hmatch with hb | hb <;>
            exact two_heads_ne ha hb (by decide)
    have htF : trumpPats.any (fun p => reMatchB p (pyStripL (pyLowerL cl.data))) = false := by
      cases hck : trumpPats.any (fun p => reMatchB p (pyStripL (pyLowerL cl.data)))
      · rfl
      · exfalso
        rcases trump_any_first2 _ hck with ha | ha <;>
          rcases bernie_any_first2 _ hmatch with hb | hb <;>
            exact two_heads_ne ha hb (by decide)
    simp only [CANONICAL_NAMES, List.findSome?_cons, List.findSome?_nil]
    rw [hkF, hbF, htF, hmatch]
    rfl

theorem entry_any_ne_nil (key canon : String) (pats : List RE)
    (hmem : (key, canon, pats) ∈ CANONICAL_NAMES)
    (h : pats.any (fun p => reMatchB p []) = true) : False := by
  simp only [CANONICAL_NAMES, List.mem_cons, List.not_mem_nil, or_false,
    Prod.mk.injEq] at hmem
  rcases hmem with ⟨h1, h2, h3⟩ | ⟨h1, h2, h3⟩ | ⟨h1, h2, h3⟩ | ⟨h1, h2, h3⟩ <;> subst h3
  · rcases kamala_any_first2 _ h with ⟨r, hr⟩ | ⟨r, hr⟩ <;> exact absurd hr (by simp)
  · rcases biden_any_first2 _ h with ⟨r, hr⟩ | ⟨r, hr⟩ <;> exact absurd hr (by simp)
  · rcases trump_any_first2 _ h with ⟨r, hr⟩ | ⟨r, hr⟩ <;> exact absurd hr (by simp)
  · rcases bernie_any_first2 _ h with ⟨r, hr⟩ | ⟨r, hr⟩ <;> exact absurd hr (by simp)

theorem advanced_of_matchC (s c : String)
    (h : match_canonical_name (clean_sponsor_name (some s)) = some c) :
    standardize_sponsor_advanced (some s) = some c := by
  by_cases hs : s = ""
  · subst hs
    simp [clean_sponsor_name, match_canonical_name] at h
  · have hc : clean_sponsor_name (some s) = some (cleanCore s) := by
      unfold clean_sponsor_name
      dsimp only
      rw [if_neg hs]
    rw [hc] at h
    by_cases hcl : cleanCore s = ""
    · rw [hcl] at h
      simp [match_canonical_name] at h
    · unfold standardize_sponsor_advanced
      dsimp only
      rw [if_neg hs, hc]
      dsimp only
      rw [if_neg hcl, h]

theorem matchC_mem_canonicals (x : Option String) (c : String)
    (h : match_canonical_name x = some c) :
    c = "Kamala Harris for President" ∨ c = "Joe Biden for President" ∨
    c = "Donald Trump for President" ∨ c = "Bernie Sanders for President" := by
  match x with
  | none => simp [match_canonical_name] at h
  | some s =>
    unfold match_canonical_name at h
    dsimp only at h
    by_cases hs : s = ""
    · rw [if_pos hs] at h
      exact absurd h (by simp)
    · rw [if_neg hs] at h
      simp only [CANONICAL_NAMES, List.findSome?_cons, List.findSome?_nil] at h
      cases hk : kamalaPats.any (fun p => reMatchB p (pyStripL (pyLowerL s.data))) <;>
        cases hb : bidenPats.any (fun p => reMatchB p (pyStripL (pyLowerL s.data))) <;>
          cases ht : trumpPats.any (fun p => reMatchB p (pyStripL (pyLowerL s.data))) <;>
            cases hbe : berniePats.any (fun p => reMatchB p (pyStripL (pyLowerL s.data))) <;>
              simp only [hk, hb, ht, hbe] at h <;> simp at h <;> simp_all

set_option maxRecDepth 200000

/-- C2: canonical-entity matching takes precedence over basic
standardization: whenever the cleaned form of a sponsor string, lowercased
and stripped, matches one of the regex patterns of some entry of
`CANONICAL_NAMES` at the start of the string, `standardize_sponsor_advanced`
returns that entry's canonical name, and basic capitalization
standardization is not applied. -/
theorem C2_canonical_match_precedence (s key canon : String) (pats : List RE)
    (hmem : (key, canon, pats) ∈ CANONICAL_NAMES)
    (hmatch : ∃ p ∈ pats,
      reMatchB p (pyStripL (pyLowerL ((clean_sponsor_name (some s)).getD "").data)) = true) :
    standardize_sponsor_advanced (some s) = some canon := by
  have hany : pats.any
      (fun p => reMatchB p
        (pyStripL (pyLowerL ((clean_sponsor_name (some s)).getD "").data))) = true := by
    rw [List.any_eq_true]
    obtain ⟨p, hp, hm⟩ := hmatch
    exact ⟨p, hp, hm⟩
  by_cases hs : s = ""
  · subst hs
    have hnil : clean_sponsor_name (some "") = none := rfl
    rw [hnil] at hany
    exact (entry_any_ne_nil key canon pats hmem
      (show pats.any (fun p => reMatchB p []) = true from hany)).elim
  · have hc : clean_sponsor_name (some s) = some (cleanCore s) := by
      unfold clean_sponsor_name
      dsimp only
      rw [if_neg hs]
    rw [hc] at hany
    simp only [Option.getD_some] at hany
    by_cases hcl : cleanCore s = ""
    · rw [hcl] at hany
      exact (entry_any_ne_nil key canon pats hmem
        (show pats.any (fun p => reMatchB p []) = true from hany)).elim
    · have hmc := matchC_of_entry (cleanCore s) key canon pats hmem hcl hany
      unfold standardize_sponsor_advanced
      dsimp only
      rw [if_neg hs, hc]
      dsimp only
      rw [if_neg hcl, hmc]

/-- C2 witness: `harris for president 12345` cleans to
`harris for president`, which matches the second Kamala Harris pattern. -/
theorem C2_canonical_match_precedence_witness :
    standardize_sponsor_advanced (some "harris for president 12345") =
      some "Kamala Harris for President" :=
  C2_canonical_match_precedence "harris for president 12345" "kamala harris"
    "Kamala Harris for President" kamalaPats (by simp [CANONICAL_NAMES])
    ⟨kamalaPat2, by simp [kamalaPats], by decide⟩

/-- C3 counterexample: the normalizer is not idempotent.  On
`a 12345 1/1/99` the cleaner removes only the trailing date (the five-digit
number is no longer at the end), the output is `A 12345`, and a second
application removes ` 12345` and shrinks it to `A`.  A second, independent
failure family: the case-insensitive Premier Network prefix removal fires
only once per pass, so a doubled prefix survives one application and is
removed by the next. -/
theorem C3_idempotence_counterexample :
    standardize_sponsor_advanced (some "a 12345 1/1/99") = some "A 12345" ∧
    standardize_sponsor_advanced (some "A 12345") = some "A" ∧
    standardize_sponsor_advanced (some "A 12345") ≠ some "A 12345" ∧
    standardize_sponsor_advanced (some "premier network premier network a") =
      some "Premier Network a" ∧
    standardize_sponsor_advanced (some "Premier Network a") = some "A" :=
  ⟨by decide, by decide, by decide, by decide, by decide⟩

/-- C3 (amended): for every sponsor string whose cleaned form matches a
canonical pattern, the normalized name is the entry's canonical name and is
a fixed point of the normalizer
(`standardize_sponsor_advanced (standardize_sponsor_advanced s) =
standardize_sponsor_advanced s` there); for basic-standardized outputs
idempotence fails in general (see the counterexample). -/
theorem C3_amended_canonical_idempotent (s c : String)
    (h : match_canonical_name (clean_sponsor_name (some s)) = some c) :
    standardize_sponsor_advanced (some s) = some c ∧
    standardize_sponsor_advanced (some c) = some c := by
  refine ⟨advanced_of_matchC s c h, ?_⟩
  rcases matchC_mem_canonicals _ c h with rfl | rfl | rfl | rfl <;> decide

/-- C3 witness: `kamala harris` normalizes to the canonical name, which is
itself a fixed point. -/
theorem C3_amended_canonical_idempotent_witness :
    standardize_sponsor_advanced (some "kamala harris") = some "Kamala Harris for President" ∧
    standardize_sponsor_advanced (some "Kamala Harris for President") =
      some "Kamala Harris for President" :=
  C3_amended_canonical_idempotent "kamala harris" "Kamala Harris for President" (by decide)
